import Mathlib

/-!
# CtrlHub rotary inverted pendulum engine — verification development

Shallow embedding of `local_agent/models/rotary_pendulum_sim_new.py`:
the PID controller, the coupled equations of motion, the RK4 integrator,
the simulation step, the experiment lifecycle operations, the bounded data
log and the performance analysis.  Python floats are modelled by `ℝ`;
`np.sin`/`np.cos` by `Real.sin`/`Real.cos`; the wall clock, the encoder
noise sample and the random initial perturbation are passed in as oracle
arguments.  Threading calls (`threading.Thread`, `Event`) are modelled by
the boolean flags the code sets around them (`running`, `should_stop`).
-/

namespace CtrlHub

/-- `np.clip(x, lo, hi)`: `x` limited to the interval `[lo, hi]`
(`min(max(x, lo), hi)`). -/
noncomputable def clip (x lo hi : ℝ) : ℝ := min (max x lo) hi

/-! ## StepperMotorParams (17HS4023 defaults) -/

/-- `StepperMotorParams.max_torque` default (`0.4 Nm`). -/
noncomputable def max_torque : ℝ := 0.4

/-- `StepperMotorParams.holding_torque` default (`0.3 Nm`). -/
noncomputable def holding_torque : ℝ := 0.3

/-! ## PIDController -/

/-- The mutable state of `PIDController`: the three gains and the
controller memory.  `max_integral` and `max_output` are set once in
`__init__` (to `100.0` and `1.0`) and never reassigned anywhere in the
repository, so they are embedded as constants below. -/
structure PIDController where
  kp : ℝ
  ki : ℝ
  kd : ℝ
  prev_error : ℝ
  integral : ℝ

/-- `PIDController.max_integral` (constant `100.0`). -/
noncomputable def max_integral : ℝ := 100

/-- `PIDController.max_output` (constant `1.0`). -/
noncomputable def max_output : ℝ := 1

/-- `PIDController()` defaults: `kp=10, ki=0.1, kd=5`, zero memory. -/
noncomputable def PIDController.init : PIDController :=
  { kp := 10, ki := 0.1, kd := 5, prev_error := 0, integral := 0 }

/-- `PIDController.update(error, dt)`: returns the updated controller and
the control output. -/
noncomputable def PIDController.update (c : PIDController) (error dt : ℝ) :
    PIDController × ℝ :=
  let proportional := c.kp * error
  let integral0 := c.integral + error * dt
  let integral1 := clip integral0 (-max_integral) max_integral
  let integralTerm := c.ki * integral1
  let derivative := if 0 < dt then c.kd * (error - c.prev_error) / dt else 0
  let output := proportional + integralTerm + derivative
  ({ c with integral := integral1, prev_error := error },
   clip output (-max_output) max_output)

/-- `PIDController.reset()`: zero the controller memory, keep the gains. -/
noncomputable def PIDController.reset (c : PIDController) : PIDController :=
  { c with prev_error := 0, integral := 0 }

/-! ## Physical parameters (fixed in `RotaryInvertedPendulumSim.__init__`) -/

/-- `self.arm_length` (`0.15 m`). -/
noncomputable def arm_length : ℝ := 0.15

/-- `self.pendulum_length` (`0.30 m`). -/
noncomputable def pendulum_length : ℝ := 0.30

/-- `self.arm_mass` (`0.05 kg`). -/
noncomputable def arm_mass : ℝ := 0.05

/-- `self.pendulum_mass` (`0.02 kg`). -/
noncomputable def pendulum_mass : ℝ := 0.02

/-- `self.gravity` (`9.81`). -/
noncomputable def gravity : ℝ := 9.81

/-- `self.arm_inertia = (1/3) * arm_mass * arm_length**2`. -/
noncomputable def arm_inertia : ℝ := (1 / 3) * arm_mass * arm_length ^ 2

/-- `self.pendulum_inertia = (1/3) * pendulum_mass * pendulum_length**2`. -/
noncomputable def pendulum_inertia : ℝ :=
  (1 / 3) * pendulum_mass * pendulum_length ^ 2

/-- `self.time_step = 1.0 / 240.0` (240 Hz; never reassigned). -/
noncomputable def time_step : ℝ := 1 / 240

/-- `damping_arm` inside `equations_of_motion` (`0.01`). -/
noncomputable def damping_arm : ℝ := 0.01

/-- `damping_pendulum` inside `equations_of_motion` (`0.001`). -/
noncomputable def damping_pendulum : ℝ := 0.001

/-! ## The state vector -/

/-- The numpy array `self.state = [theta, theta_dot, phi, phi_dot]`
(arm angle, arm velocity, pendulum angle from vertical, pendulum
velocity).  A derivative uses the same four slots for
`[theta_dot, theta_ddot, phi_dot, phi_ddot]`. -/
structure StateVec where
  theta : ℝ
  theta_dot : ℝ
  phi : ℝ
  phi_dot : ℝ

instance : Add StateVec :=
  ⟨fun a b => ⟨a.theta + b.theta, a.theta_dot + b.theta_dot,
               a.phi + b.phi, a.phi_dot + b.phi_dot⟩⟩

instance : SMul ℝ StateVec :=
  ⟨fun r a => ⟨r * a.theta, r * a.theta_dot, r * a.phi, r * a.phi_dot⟩⟩

/-! ## `equations_of_motion` (nested in `step_simulation`) -/

/-- `equations_of_motion(state, torque)`: the coupled rotary-pendulum
equations.  Returns `[theta_dot, theta_ddot, phi_dot, phi_ddot]`.  The
determinant of the mass matrix is replaced by `1e-10` whenever its
magnitude is below `1e-10` before dividing. -/
noncomputable def equations_of_motion (s : StateVec) (torque : ℝ) : StateVec :=
  let m2 := pendulum_mass
  let l1 := arm_length
  let l2 := pendulum_length / 2
  let I1 := arm_inertia
  let I2 := pendulum_inertia
  let g := gravity
  let M11 := I1 + m2 * l1 ^ 2 + I2 * Real.sin s.phi ^ 2
  let M12 := (I2 + m2 * l2 ^ 2) * Real.cos s.phi
  let M21 := M12
  let M22 := I2 + m2 * l2 ^ 2
  let c1 := I2 * Real.sin s.phi * Real.cos s.phi * s.theta_dot ^ 2
            - (I2 + m2 * l2 ^ 2) * Real.sin s.phi * s.phi_dot ^ 2
  let c2 := -(I2 * Real.sin s.phi * Real.cos s.phi) * s.theta_dot ^ 2
  let G1 := (0 : ℝ)
  let G2 := m2 * g * l2 * Real.sin s.phi
  let tau1 := torque - damping_arm * s.theta_dot
  let tau2 := (0 : ℝ) - damping_pendulum * s.phi_dot
  let det_M := M11 * M22 - M12 * M21
  let det_M' := if |det_M| < 1e-10 then 1e-10 else det_M
  let theta_ddot := (M22 * (tau1 - c1 - G1) - M12 * (tau2 - c2 - G2)) / det_M'
  let phi_ddot := (M11 * (tau2 - c2 - G2) - M21 * (tau1 - c1 - G1)) / det_M'
  ⟨s.theta_dot, theta_ddot, s.phi_dot, phi_ddot⟩

/-- Classical 4th-order Runge-Kutta step, exactly as laid out in
`step_simulation`: four evaluations of `f` (the dynamics at the torque
held for the whole step) combined as `s + dt*(k1 + 2*k2 + 2*k3 + k4)/6`. -/
noncomputable def rk4 (f : StateVec → StateVec) (dt : ℝ) (s : StateVec) :
    StateVec :=
  let k1 := f s
  let k2 := f (s + (0.5 * dt) • k1)
  let k3 := f (s + (0.5 * dt) • k2)
  let k4 := f (s + dt • k3)
  s + (dt / 6) • (k1 + (2 : ℝ) • k2 + (2 : ℝ) • k3 + k4)

/-! ## AS5600Encoder -/

/-- `self.resolution` (`4096`, 12-bit). -/
def resolution : ℤ := 4096

/-- Python `int(x)`: truncation toward zero. -/
noncomputable def truncInt (x : ℝ) : ℤ := if 0 ≤ x then ⌊x⌋ else ⌈x⌉

/-- `AS5600Encoder.read_position(angle)`; the sampled Gaussian noise is the
oracle argument `noise`.  Returns `(raw, measured_angle)` (the `degrees`
entry of the returned dict is never logged). -/
noncomputable def read_position (angle noise : ℝ) : ℤ × ℝ :=
  let normalized_angle := angle - 2 * Real.pi * ⌊angle / (2 * Real.pi)⌋
  let raw_value := truncInt (normalized_angle / (2 * Real.pi) * (resolution : ℝ))
  let noisy_raw := max 0 (min (resolution - 1)
    (raw_value + truncInt (noise * (resolution : ℝ))))
  (noisy_raw, (noisy_raw : ℝ) / (resolution : ℝ) * (2 * Real.pi))

/-! ## The data log -/

/-- One entry of `self.data_log`: the `state_data` dict built each tick. -/
structure Snapshot where
  timestamp : ℝ
  arm_angle : ℝ
  arm_velocity : ℝ
  pendulum_angle : ℝ
  pendulum_velocity : ℝ
  motor_torque : ℝ
  encoder_raw : ℤ
  encoder_angle : ℝ
  pid_output : ℝ
  pid_error : ℝ
  target_angle : ℝ
  control_enabled : Bool

/-- The log append at the end of `step_simulation`:
`data_log.append(x)` followed by
`if len(data_log) > 10000: data_log = data_log[-5000:]`.
(Python `l[-5000:]` keeps the last 5000 entries, i.e. drops
`len - 5000` from the front.) -/
def appendLog {α : Type} (l : List α) (x : α) : List α :=
  let l' := l ++ [x]
  if 10000 < l'.length then l'.drop (l'.length - 5000) else l'

/-! ## RotaryInvertedPendulumSim state -/

/-- The mutable fields of `RotaryInvertedPendulumSim` that the embedded
operations read or write.  `should_stop` stands for the
`threading.Event`; the spawned simulation thread itself is not modelled
(only the flags `start_experiment`/`stop_experiment` set around it). -/
structure Sim where
  running : Bool
  state : StateVec
  target_pendulum_angle : ℝ
  motor_torque : ℝ
  control_enabled : Bool
  pid : PIDController
  data_log : List Snapshot
  start_time : ℝ
  should_stop : Bool

/-- `RotaryInvertedPendulumSim.__init__` (with `start_time = None`
modelled as `0`). -/
noncomputable def Sim.init : Sim :=
  { running := false
    state := ⟨0, 0, 0.1, 0⟩
    target_pendulum_angle := 0
    motor_torque := 0
    control_enabled := true
    pid := PIDController.init
    data_log := []
    start_time := 0
    should_stop := false }

/-- `step_simulation()`.  Oracle arguments: `noise` is the Gaussian sample
drawn inside `encoder.read_position`, `now` is `time.time()`.  Returns the
updated object together with the returned `state_data` dict (`none` for
the early-return `{}` when not running).  The source computes
`pendulum_error`, `control_output` and `motor_torque` in one
`if self.control_enabled:` block; that single branch is split here into
three `if`s on the same condition. -/
noncomputable def step_simulation (sim : Sim) (noise now : ℝ) :
    Sim × Option Snapshot :=
  if sim.running then
    let s := sim.state
    let pendulum_error :=
      if sim.control_enabled then sim.target_pendulum_angle - s.phi else 0
    let upd :=
      if sim.control_enabled then sim.pid.update pendulum_error time_step
      else (sim.pid, 0)
    let control_output := upd.2
    let mtorque :=
      if sim.control_enabled then
        clip (control_output * max_torque) (-max_torque) max_torque
      else 0
    let newState := rk4 (fun st => equations_of_motion st mtorque) time_step s
    let enc := read_position newState.theta noise
    let current_time := now - sim.start_time
    let snap : Snapshot :=
      { timestamp := current_time
        arm_angle := newState.theta
        arm_velocity := newState.theta_dot
        pendulum_angle := newState.phi
        pendulum_velocity := newState.phi_dot
        motor_torque := mtorque
        encoder_raw := enc.1
        encoder_angle := enc.2
        pid_output := if sim.control_enabled then control_output else 0
        pid_error := if sim.control_enabled then pendulum_error else 0
        target_angle := sim.target_pendulum_angle
        control_enabled := sim.control_enabled }
    ({ sim with
        state := newState
        motor_torque := mtorque
        pid := upd.1
        data_log := appendLog sim.data_log snap },
     some snap)
  else (sim, none)

/-! ## Lifecycle operations -/

/-- `start_experiment()`.  `initialize_physics` resets the state vector to
`[0, 0, rand, 0]` (`rand` is the sampled `np.random.uniform(-0.1, 0.1)`
perturbation, an oracle here) and the start time; then `running = True`,
`should_stop.clear()`, a fresh daemon thread is spawned (not modelled) and
`True` is returned.  No check of the current lifecycle state is made. -/
noncomputable def start_experiment (sim : Sim) (rand now : ℝ) : Sim × Bool :=
  ({ sim with
      state := ⟨0, 0, rand, 0⟩
      start_time := now
      running := true
      should_stop := false },
   true)

/-- `stop_experiment()`: `running = False`, `should_stop.set()`, join the
thread (not modelled), return `True`.  No check of the current lifecycle
state is made. -/
noncomputable def stop_experiment (sim : Sim) : Sim × Bool :=
  ({ sim with running := false, should_stop := true }, true)

/-- `set_pid_parameters(kp, ki, kd)`: assign the three gains, then call
`self.pid_controller.reset()` (the source comments this
`# Reset integral term`), and return `True`. -/
noncomputable def set_pid_parameters (sim : Sim) (kp ki kd : ℝ) : Sim × Bool :=
  ({ sim with pid := PIDController.reset { sim.pid with kp := kp, ki := ki, kd := kd } },
   true)

/-! ## Performance analysis -/

/-- The `for i, angle in enumerate(angles):` scan of
`_calculate_settling_time` (`threshold = 0.05`): at each index, if
`abs(angle) <= threshold` and the 240-sample window
`angles[i:i+240]` is complete (`len(remaining) >= 240`) and entirely
within the threshold, the loop returns that index.  `findSettle` returns
the index the loop would return, `none` when the loop falls through. -/
noncomputable def findSettle : List ℝ → Option ℕ
  | [] => none
  | a :: rest =>
      if |a| ≤ 0.05 ∧ 240 ≤ (a :: rest).length ∧
          ∀ x ∈ (a :: rest).take 240, |x| ≤ 0.05 then
        some 0
      else (findSettle rest).map (· + 1)

/-- `_calculate_settling_time(angles)`: `0.0` for an empty list; else the
first index found by the scan times `self.time_step`; else (never
settled) `len(angles) * self.time_step`. -/
noncomputable def calculate_settling_time (angles : List ℝ) : ℝ :=
  if angles.isEmpty then 0
  else
    match findSettle angles with
    | some i => (i : ℝ) * time_step
    | none => (angles.length : ℝ) * time_step

/-- The claim's notion of "settled from index `i` on": the error stays
within the `0.05` tolerance band continuously for the minimum dwell of
240 consecutive samples (1 s at 240 Hz), all present in the window. -/
def settledAt (l : List ℝ) (i : ℕ) : Prop :=
  i + 240 ≤ l.length ∧ ∀ x ∈ (l.drop i).take 240, |x| ≤ 0.05

open Classical in
/-- Settling time as claim C9 words it (spec §4.7), for comparison with
`calculate_settling_time`: the elapsed time to the first index from which
the trajectory stays in the band for the dwell period, and `none`
whenever the trajectory never settles. -/
noncomputable def settling_time_spec (l : List ℝ) : Option ℝ :=
  if h : ∃ i, settledAt l i then some ((Nat.find h : ℝ) * time_step) else none

/-- `np.sqrt(np.mean(np.array(xs)**2))` for a list of reals. -/
noncomputable def rmsOf (xs : List ℝ) : ℝ :=
  Real.sqrt ((xs.map (fun x => x ^ 2)).sum / (xs.length : ℝ))

/-- `np.mean` of a list of reals. -/
noncomputable def meanOf (xs : List ℝ) : ℝ := xs.sum / (xs.length : ℝ)

/-- `np.max(np.abs(xs))` (as folded maximum; the call site guarantees a
nonempty list). -/
noncomputable def maxAbsOf (xs : List ℝ) : ℝ := (xs.map (fun x => |x|)).foldr max 0

/-- `_calculate_stability_rating(rms_error)`. -/
noncomputable def calculate_stability_rating (rms_error : ℝ) : String :=
  if rms_error < 0.02 then "Excellent"
  else if rms_error < 0.05 then "Good"
  else if rms_error < 0.1 then "Fair"
  else "Poor"

/-- The dict returned by `get_performance_metrics` when the log holds
enough data. -/
structure Metrics where
  rms_angle_error : ℝ
  max_angle_deviation : ℝ
  settling_time : ℝ
  energy_consumption : ℝ
  stability_rating : String
  data_points : ℕ

/-- `data_log[-2400:] if len(data_log) > 2400 else data_log`: the most
recent window the metrics are computed over. -/
def recentWindow {α : Type} (l : List α) : List α :=
  if 2400 < l.length then l.drop (l.length - 2400) else l

/-- The metrics computed over a window of snapshots. -/
noncomputable def metricsOver (recent_data : List Snapshot) : Metrics :=
  let pendulum_angles := recent_data.map Snapshot.pendulum_angle
  let motor_torques := recent_data.map Snapshot.motor_torque
  let rms_angle_error := rmsOf pendulum_angles
  { rms_angle_error := rms_angle_error
    max_angle_deviation := maxAbsOf pendulum_angles
    settling_time := calculate_settling_time pendulum_angles
    energy_consumption := meanOf (motor_torques.map (fun x => |x|))
    stability_rating := calculate_stability_rating rms_angle_error
    data_points := recent_data.length }

/-- `get_performance_metrics()`: the empty dict (`none`) whenever the log
holds fewer than 100 snapshots, else the metrics over the most recent
window of at most 2400 snapshots.  Reads only `self.data_log`. -/
noncomputable def get_performance_metrics (sim : Sim) : Option Metrics :=
  if sim.data_log.length < 100 then none
  else some (metricsOver (recentWindow sim.data_log))

/-! ## Helper lemmas -/

lemma abs_clip_le (x m : ℝ) (hm : 0 ≤ m) : |clip x (-m) m| ≤ m := by
  unfold clip
  rw [abs_le]
  refine ⟨le_min (le_max_right _ _) (by linarith), min_le_right _ _⟩

lemma update_integral_bounded (c : PIDController) (e dt : ℝ) :
    |(c.update e dt).1.integral| ≤ max_integral := by
  have : (0 : ℝ) ≤ max_integral := by norm_num [max_integral]
  simpa [PIDController.update] using abs_clip_le (c.integral + e * dt) max_integral this

/-- One PID transition of the fold used below. -/
noncomputable def pidStep (c : PIDController) (p : ℝ × ℝ) : PIDController :=
  (c.update p.1 p.2).1

/-! ## Claim theorems -/

/-- C7.  After every call to `PIDController.update` — whatever sequence of
error/dt inputs follows, including ones that keep the output saturated —
the stored integral accumulator satisfies `|integral| ≤ max_integral`
(the `integral_limit`, 100): the accumulator is clamped on every update. -/
theorem pid_integral_always_bounded (c : PIDController) (e dt : ℝ)
    (rest : List (ℝ × ℝ)) :
    |(rest.foldl pidStep (c.update e dt).1).integral| ≤ max_integral := by
  induction rest generalizing c e dt with
  | nil => simpa using update_integral_bounded c e dt
  | cons p rest ih =>
      have := ih (c.update e dt).1 p.1 p.2
      simpa [List.foldl_cons, pidStep] using this

/-- A PID controller holding nonzero memory, inside an experiment. -/
noncomputable def simStale : Sim :=
  { Sim.init with pid := { kp := 10, ki := 0.1, kd := 5, prev_error := 3, integral := 7 } }

/-- C6, counterexample.  `set_pid_parameters(1, 2, 3)` on a controller
whose accumulator holds `7` zeroes the accumulator: the controller
memory is *not* left unchanged by a gain change. -/
theorem set_pid_parameters_clears_memory :
    (set_pid_parameters simStale 1 2 3).1.pid.integral ≠ simStale.pid.integral := by
  simp only [set_pid_parameters, PIDController.reset, simStale, Sim.init]
  norm_num

/-- C6, amended.  `set_pid_parameters(kp, ki, kd)` replaces the three
gains and then resets the controller memory: the integral accumulator and
`prev_error` are both zeroed (the source calls
`self.pid_controller.reset()` with the comment `# Reset integral term`),
and the call reports success. -/
theorem set_pid_parameters_replaces_gains_and_resets (sim : Sim) (kp ki kd : ℝ) :
    set_pid_parameters sim kp ki kd =
      ({ sim with pid := { kp := kp, ki := ki, kd := kd, prev_error := 0, integral := 0 } },
       true) := rfl

/-- A Running experiment with a distinctive state vector. -/
noncomputable def simBusy : Sim :=
  { Sim.init with running := true, state := ⟨1, 2, 3, 4⟩ }

/-- C5, counterexample.  A second `start_experiment()` on an
already-Running experiment reports success (`True`, not a failure
result) and overwrites the running instance's state vector; and
`stop_experiment()` on an Idle experiment also reports success rather
than failure. -/
theorem invalid_transitions_still_succeed :
    (start_experiment simBusy 0 0).2 = true ∧
    (start_experiment simBusy 0 0).1.state.theta ≠ simBusy.state.theta ∧
    (stop_experiment Sim.init).2 = true := by
  refine ⟨rfl, ?_, rfl⟩
  simp only [start_experiment, simBusy, Sim.init]
  norm_num

/-- C5, amended.  Neither lifecycle operation checks the current state:
`start_experiment` always reports success and re-initializes the state
vector (fresh perturbation `rand`) and the start time — keeping the data
log and PID memory — and `stop_experiment` always reports success,
clearing `running` and setting the stop flag (from Idle this leaves the
state not-running, but the result is `True`, not a failure). -/
theorem lifecycle_ops_always_succeed (sim : Sim) (rand now : ℝ) :
    (start_experiment sim rand now).2 = true ∧
    (start_experiment sim rand now).1.running = true ∧
    (start_experiment sim rand now).1.state = ⟨0, 0, rand, 0⟩ ∧
    (start_experiment sim rand now).1.start_time = now ∧
    (start_experiment sim rand now).1.data_log = sim.data_log ∧
    (start_experiment sim rand now).1.pid = sim.pid ∧
    stop_experiment sim = ({ sim with running := false, should_stop := true }, true) :=
  ⟨rfl, rfl, rfl, rfl, rfl, rfl, rfl⟩

/-- A freshly started experiment: `__init__` state (pendulum at
`phi = 0.1`), control enabled, running. -/
noncomputable def simRun : Sim := { Sim.init with running := true }

/-- C3, counterexample.  One control tick from the initial perturbation
`phi = 0.1` saturates the PID output at `-1.0`, so the applied motor
torque is `-1.0 * max_torque = -0.4`, whose magnitude exceeds the
holding torque `0.3`: the clamp in `step_simulation` is to
`±max_torque`, not `±holding_torque`. -/
theorem motor_torque_exceeds_holding :
    holding_torque < |(step_simulation simRun 0 0).1.motor_torque| := by
  simp only [step_simulation, simRun, Sim.init, PIDController.init,
    PIDController.update, clip, time_step, max_torque, max_integral, max_output,
    holding_torque, if_true]
  norm_num [min_def, max_def, abs]

/-- C3, amended.  On every simulation tick the applied motor torque
satisfies `|motor_torque| ≤ max_torque` (`0.4 Nm`, the motor's rated
maximum): the PID output is clamped to `[-max_torque, +max_torque]`
(and is `0` with control disabled).  The bound `holding_torque`
(`0.3 Nm`) claimed by the spec is not the one enforced. -/
theorem motor_torque_le_max (sim : Sim) (noise now : ℝ)
    (hrun : sim.running = true) :
    |(step_simulation sim noise now).1.motor_torque| ≤ max_torque := by
  have hm : (0 : ℝ) ≤ max_torque := by norm_num [max_torque]
  simp only [step_simulation, hrun, if_true]
  by_cases hc : sim.control_enabled
  · simpa [hc] using abs_clip_le _ max_torque hm
  · simpa [hc] using hm

/-- C3 witness: the amended bound at a concrete running experiment. -/
theorem motor_torque_le_max_at_simRun :
    |(step_simulation simRun 0 0).1.motor_torque| ≤ max_torque :=
  motor_torque_le_max simRun 0 0 rfl

/-- `recentWindow` keeps `min (length, 2400)` entries, the most recent. -/
lemma recentWindow_length {α : Type} (l : List α) :
    (recentWindow l).length = min l.length 2400 := by
  unfold recentWindow
  split <;> simp <;> omega

lemma recentWindow_suffix {α : Type} (l : List α) :
    (recentWindow l).IsSuffix l := by
  unfold recentWindow
  split
  · exact List.drop_suffix _ _
  · exact List.suffix_refl _

/-- C10.  `get_performance_metrics` returns the empty result whenever the
data log holds fewer than 100 snapshots — independently of whether the
experiment is Running — and otherwise computes its metrics over the most
recent window of `min(length, 2400) ≤ 2400` snapshots (a suffix of the
log). -/
theorem performance_metrics_windowed (sim : Sim) :
    ((get_performance_metrics sim).map Metrics.data_points
        = if sim.data_log.length < 100 then none
          else some (min sim.data_log.length 2400)) ∧
    (recentWindow sim.data_log).length = min sim.data_log.length 2400 ∧
    (recentWindow sim.data_log).IsSuffix sim.data_log ∧
    get_performance_metrics { sim with running := true }
      = get_performance_metrics { sim with running := false } := by
  refine ⟨?_, recentWindow_length _, recentWindow_suffix _, rfl⟩
  unfold get_performance_metrics
  split
  · rfl
  · simp [metricsOver, recentWindow_length]

/-! ### The bounded data log -/

lemma appendLog_of_le {α : Type} (l : List α) (x : α) (h : l.length < 10000) :
    appendLog l x = l ++ [x] := by
  unfold appendLog
  rw [if_neg]
  simp only [List.length_append, List.length_cons, List.length_nil]
  omega

lemma appendLog_length_le {α : Type} (l : List α) (x : α)
    (h : l.length ≤ 10000) : (appendLog l x).length ≤ 10000 := by
  simp only [appendLog]
  split <;> rename_i hsp <;>
    simp only [List.length_drop, List.length_append, List.length_cons,
      List.length_nil] at hsp ⊢ <;> omega

lemma appendLog_suffix {α : Type} (l : List α) (x : α) :
    (appendLog l x).IsSuffix (l ++ [x]) := by
  simp only [appendLog]
  split
  · exact List.drop_suffix _ _
  · exact List.suffix_refl _

lemma foldl_appendLog_id {α : Type} (l : List α) (h : l.length ≤ 10000) :
    l.foldl appendLog [] = l := by
  induction l using List.reverseRecOn with
  | nil => rfl
  | append_singleton ys y ih =>
      rw [List.foldl_append]
      rw [ih (by simp at h; omega)]
      exact appendLog_of_le ys y (by simp at h; omega)

/-- C8, counterexample.  Appending 10001 snapshots to an empty log leaves
5000 entries, not `min(10001, 10000) = 10000`: when the append crosses
the 10000 bound the code truncates the log to its most recent 5000
entries (`data_log[-5000:]`), evicting 5001 entries at once. -/
theorem log_truncates_to_5000 :
    ((List.range 10001).foldl appendLog ([] : List ℕ)).length = 5000 ∧
    (5000 : ℕ) ≠ min 10001 10000 := by
  constructor
  · have h1 : (List.range 10001) = List.range 10000 ++ [10000] := by
      rw [List.range_succ]
    rw [h1, List.foldl_append,
      foldl_appendLog_id (List.range 10000) (by simp),
      List.foldl_cons, List.foldl_nil]
    simp only [appendLog]
    rw [if_pos (by simp)]
    simp
  · omega

/-- C8, amended.  The data log never exceeds the capacity 10000, and what
it retains is always a suffix of the appended stream (eviction removes
only the oldest entries); but when an append crosses the capacity the
log is cut back to its most recent 5000 entries, so after the bound is
first reached the retained count is not `min(total appended, 10000)`. -/
theorem log_bounded_and_suffix {α : Type} (xs : List α) :
    (xs.foldl appendLog []).length ≤ 10000 ∧
    (xs.foldl appendLog []).IsSuffix xs := by
  induction xs using List.reverseRecOn with
  | nil => exact ⟨by simp, List.suffix_refl _⟩
  | append_singleton ys y ih =>
      rw [List.foldl_append]
      refine ⟨appendLog_length_le _ _ ih.1, ?_⟩
      refine (appendLog_suffix _ _).trans ?_
      obtain ⟨t, ht⟩ := ih.2
      exact ⟨t, by rw [← List.append_assoc, ht]⟩

/-! ### The control law and the integrator -/

/-- C1.  On every tick with control enabled the PID error is the target
pendulum angle minus the pendulum angle `phi` — and is unchanged by any
value of the arm angle `theta` — and the clamped PID output is the torque
fed to the dynamics for the whole step (`equations_of_motion` applies it
to the arm equation). -/
theorem control_error_is_cross_axis (sim : Sim) (noise now : ℝ)
    (hrun : sim.running = true) (hc : sim.control_enabled = true) :
    ((step_simulation sim noise now).2.map Snapshot.pid_error)
        = some (sim.target_pendulum_angle - sim.state.phi) ∧
    (∀ t : ℝ,
      ((step_simulation { sim with state := { sim.state with theta := t } }
          noise now).2.map Snapshot.pid_error)
        = some (sim.target_pendulum_angle - sim.state.phi)) ∧
    (step_simulation sim noise now).1.motor_torque
        = clip ((sim.pid.update (sim.target_pendulum_angle - sim.state.phi)
              time_step).2 * max_torque)
            (-max_torque) max_torque ∧
    (step_simulation sim noise now).1.state
        = rk4 (fun st => equations_of_motion st
            ((step_simulation sim noise now).1.motor_torque))
            time_step sim.state := by
  refine ⟨?_, fun t => ?_, ?_, ?_⟩ <;>
    simp [step_simulation, hrun, hc]

/-- C1 witness: the cross-axis error at a concrete running experiment. -/
theorem control_error_is_cross_axis_at_simRun :
    ((step_simulation simRun 0 0).2.map Snapshot.pid_error)
        = some (simRun.target_pendulum_angle - simRun.state.phi) :=
  (control_error_is_cross_axis simRun 0 0 rfl rfl).1

/-- C4.  With the experiment running, one call to `step_simulation`
advances the state by the classical RK4 rule: `k1 = f(s)`,
`k2 = f(s + dt/2*k1)`, `k3 = f(s + dt/2*k2)`, `k4 = f(s + dt*k3)`, every
evaluation at the same applied torque (zero-order hold), and the new
state is `s + dt*(k1 + 2*k2 + 2*k3 + k4)/6`. -/
theorem step_advances_by_rk4 (sim : Sim) (noise now : ℝ)
    (hrun : sim.running = true) :
    (step_simulation sim noise now).1.state =
      (let tq := (step_simulation sim noise now).1.motor_torque
       let f := fun st => equations_of_motion st tq
       let k1 := f sim.state
       let k2 := f (sim.state + (0.5 * time_step) • k1)
       let k3 := f (sim.state + (0.5 * time_step) • k2)
       let k4 := f (sim.state + time_step • k3)
       sim.state + (time_step / 6) • (k1 + (2 : ℝ) • k2 + (2 : ℝ) • k3 + k4)) := by
  simp [step_simulation, hrun, rk4]

/-- C4 witness: the RK4 update equation at a concrete running experiment. -/
theorem step_advances_by_rk4_at_simRun :
    (step_simulation simRun 0 0).1.state =
      (let tq := (step_simulation simRun 0 0).1.motor_torque
       let f := fun st => equations_of_motion st tq
       let k1 := f simRun.state
       let k2 := f (simRun.state + (0.5 * time_step) • k1)
       let k3 := f (simRun.state + (0.5 * time_step) • k2)
       let k4 := f (simRun.state + time_step • k3)
       simRun.state + (time_step / 6) • (k1 + (2 : ℝ) • k2 + (2 : ℝ) • k3 + k4)) :=
  step_advances_by_rk4 simRun 0 0 rfl

/-! ### The dynamics -/

/-- Cramer's rule for the 2×2 system, with a symmetric off-diagonal. -/
lemma cramer2 (M11 M12 M22 r1 r2 d : ℝ) (hd : d = M11 * M22 - M12 * M12)
    (hne : d ≠ 0) :
    M11 * ((M22 * r1 - M12 * r2) / d) + M12 * ((M11 * r2 - M12 * r1) / d) = r1 ∧
    M12 * ((M22 * r1 - M12 * r2) / d) + M22 * ((M11 * r2 - M12 * r1) / d) = r2 := by
  constructor <;> (field_simp; rw [hd]; ring)

/-- C2.  `equations_of_motion` returns
`[theta_dot, theta_ddot, phi_dot, phi_ddot]` where the accelerations are
the Cramer solution of the 2×2 system with the mass matrix, Coriolis,
gravity and damping terms exactly as specified; the determinant used as
divisor is replaced by `1e-10` whenever `|det M| < 1e-10` — so the
divisor's magnitude is never below `1e-10` — and whenever
`|det M| ≥ 1e-10` the returned accelerations exactly solve
`M * [theta_ddot; phi_ddot] = [tau1; tau2] - [C1; C2] - [0; G2]`. -/
theorem eom_solves_mass_matrix_system (s : StateVec) (torque : ℝ) :
    (let m2 := pendulum_mass
     let l1 := arm_length
     let l2 := pendulum_length / 2
     let I1 := arm_inertia
     let I2 := pendulum_inertia
     let g := gravity
     let M11 := I1 + m2 * l1 ^ 2 + I2 * Real.sin s.phi ^ 2
     let M12 := (I2 + m2 * l2 ^ 2) * Real.cos s.phi
     let M22 := I2 + m2 * l2 ^ 2
     let co1 := I2 * Real.sin s.phi * Real.cos s.phi * s.theta_dot ^ 2
               - (I2 + m2 * l2 ^ 2) * Real.sin s.phi * s.phi_dot ^ 2
     let co2 := -(I2 * Real.sin s.phi * Real.cos s.phi) * s.theta_dot ^ 2
     let G2 := m2 * g * l2 * Real.sin s.phi
     let tau1 := torque - damping_arm * s.theta_dot
     let tau2 := (0 : ℝ) - damping_pendulum * s.phi_dot
     let det_M := M11 * M22 - M12 * M12
     let det_M' := if |det_M| < 1e-10 then 1e-10 else det_M
     let d := equations_of_motion s torque
     d.theta = s.theta_dot ∧
     d.phi = s.phi_dot ∧
     d.theta_dot = (M22 * (tau1 - co1 - 0) - M12 * (tau2 - co2 - G2)) / det_M' ∧
     d.phi_dot = (M11 * (tau2 - co2 - G2) - M12 * (tau1 - co1 - 0)) / det_M' ∧
     (1e-10 : ℝ) ≤ |det_M'| ∧
     ((1e-10 : ℝ) ≤ |det_M| →
       M11 * d.theta_dot + M12 * d.phi_dot = tau1 - co1 - 0 ∧
       M12 * d.theta_dot + M22 * d.phi_dot = tau2 - co2 - G2)) := by
  refine ⟨rfl, rfl, rfl, rfl, ?_, ?_⟩
  · split
    · rw [abs_of_pos (by norm_num)]
    · next h => exact not_lt.mp h
  · intro hdet
    have hne : (arm_inertia + pendulum_mass * arm_length ^ 2 +
          pendulum_inertia * Real.sin s.phi ^ 2) *
          (pendulum_inertia + pendulum_mass * (pendulum_length / 2) ^ 2) -
        (pendulum_inertia + pendulum_mass * (pendulum_length / 2) ^ 2) *
          Real.cos s.phi *
          ((pendulum_inertia + pendulum_mass * (pendulum_length / 2) ^ 2) *
            Real.cos s.phi) ≠ 0 := by
      intro h0
      rw [h0] at hdet
      norm_num at hdet
    exact cramer2
      (arm_inertia + pendulum_mass * arm_length ^ 2 +
        pendulum_inertia * Real.sin s.phi ^ 2)
      ((pendulum_inertia + pendulum_mass * (pendulum_length / 2) ^ 2) *
        Real.cos s.phi)
      (pendulum_inertia + pendulum_mass * (pendulum_length / 2) ^ 2)
      (torque - damping_arm * s.theta_dot -
        (pendulum_inertia * Real.sin s.phi * Real.cos s.phi * s.theta_dot ^ 2 -
          (pendulum_inertia + pendulum_mass * (pendulum_length / 2) ^ 2) *
            Real.sin s.phi * s.phi_dot ^ 2) - 0)
      (0 - damping_pendulum * s.phi_dot -
        -(pendulum_inertia * Real.sin s.phi * Real.cos s.phi) * s.theta_dot ^ 2 -
        pendulum_mass * gravity * (pendulum_length / 2) * Real.sin s.phi)
      (if |(arm_inertia + pendulum_mass * arm_length ^ 2 +
            pendulum_inertia * Real.sin s.phi ^ 2) *
            (pendulum_inertia + pendulum_mass * (pendulum_length / 2) ^ 2) -
          (pendulum_inertia + pendulum_mass * (pendulum_length / 2) ^ 2) *
            Real.cos s.phi *
            ((pendulum_inertia + pendulum_mass * (pendulum_length / 2) ^ 2) *
              Real.cos s.phi)| < 1e-10 then 1e-10
       else
        (arm_inertia + pendulum_mass * arm_length ^ 2 +
          pendulum_inertia * Real.sin s.phi ^ 2) *
          (pendulum_inertia + pendulum_mass * (pendulum_length / 2) ^ 2) -
        (pendulum_inertia + pendulum_mass * (pendulum_length / 2) ^ 2) *
          Real.cos s.phi *
          ((pendulum_inertia + pendulum_mass * (pendulum_length / 2) ^ 2) *
            Real.cos s.phi))
      (if_neg (not_lt.mpr hdet))
      (by rw [if_neg (not_lt.mpr hdet)]; exact hne)

/-- The determinant premise of the Cramer clause above is satisfiable:
at the rest state (`phi = 0`) the mass-matrix determinant has magnitude
`2.3625e-7 ≥ 1e-10`. -/
lemma det_premise_satisfiable_at_rest :
    (1e-10 : ℝ) ≤
      |(arm_inertia + pendulum_mass * arm_length ^ 2 +
          pendulum_inertia * Real.sin (0 : ℝ) ^ 2) *
          (pendulum_inertia + pendulum_mass * (pendulum_length / 2) ^ 2) -
        (pendulum_inertia + pendulum_mass * (pendulum_length / 2) ^ 2) *
          Real.cos (0 : ℝ) *
          ((pendulum_inertia + pendulum_mass * (pendulum_length / 2) ^ 2) *
            Real.cos (0 : ℝ))| := by
  rw [Real.sin_zero, Real.cos_zero]
  rw [abs_of_nonpos (by
    norm_num [arm_inertia, pendulum_inertia, arm_mass, pendulum_mass,
      arm_length, pendulum_length])]
  norm_num [arm_inertia, pendulum_inertia, arm_mass, pendulum_mass,
    arm_length, pendulum_length]

/-! ### Settling time -/

lemma settledAt_nil (i : ℕ) : ¬ settledAt ([] : List ℝ) i := by
  rintro ⟨h, -⟩
  simp at h

lemma settledAt_cons_succ (a : ℝ) (l : List ℝ) (i : ℕ) :
    settledAt (a :: l) (i + 1) ↔ settledAt l i := by
  unfold settledAt
  rw [List.drop_succ_cons, List.length_cons]
  constructor <;> rintro ⟨h1, h2⟩ <;> exact ⟨by omega, h2⟩

lemma settledAt_cons_zero (a : ℝ) (l : List ℝ) :
    settledAt (a :: l) 0 ↔
      (240 ≤ (a :: l).length ∧ ∀ x ∈ (a :: l).take 240, |x| ≤ 0.05) := by
  unfold settledAt
  rw [List.drop_zero]

/-- The loop's per-index test (`abs(angle) <= threshold` plus the full
in-band window) holds exactly when the trajectory is settled there. -/
lemma findSettle_cond_iff (a : ℝ) (l : List ℝ) :
    (|a| ≤ 0.05 ∧ 240 ≤ (a :: l).length ∧
        ∀ x ∈ (a :: l).take 240, |x| ≤ 0.05) ↔ settledAt (a :: l) 0 := by
  rw [settledAt_cons_zero]
  constructor
  · rintro ⟨-, h2, h3⟩
    exact ⟨h2, h3⟩
  · rintro ⟨h2, h3⟩
    refine ⟨h3 a ?_, h2, h3⟩
    have h240 : (240 : ℕ) = 239 + 1 := rfl
    rw [h240, List.take_succ_cons]
    exact List.mem_cons_self a _

lemma findSettle_none_iff (l : List ℝ) :
    findSettle l = none ↔ ∀ i, ¬ settledAt l i := by
  induction l with
  | nil =>
      constructor
      · intro _ i
        exact settledAt_nil i
      · intro _
        rfl
  | cons a rest ih =>
      unfold findSettle
      by_cases hc : |a| ≤ 0.05 ∧ 240 ≤ (a :: rest).length ∧
          ∀ x ∈ (a :: rest).take 240, |x| ≤ 0.05
      · rw [if_pos hc]
        constructor
        · intro h
          exact absurd h (by simp)
        · intro h
          exact absurd ((findSettle_cond_iff a rest).mp hc) (h 0)
      · rw [if_neg hc, Option.map_eq_none', ih]
        constructor
        · intro h i
          cases i with
          | zero =>
              intro hz
              exact hc ((findSettle_cond_iff a rest).mpr hz)
          | succ j =>
              rw [settledAt_cons_succ]
              exact h j
        · intro h j
          have := h (j + 1)
          rwa [settledAt_cons_succ] at this

lemma findSettle_some (l : List ℝ) (i : ℕ) (h : findSettle l = some i) :
    settledAt l i ∧ ∀ j, j < i → ¬ settledAt l j := by
  induction l generalizing i with
  | nil => simp [findSettle] at h
  | cons a rest ih =>
      unfold findSettle at h
      by_cases hc : |a| ≤ 0.05 ∧ 240 ≤ (a :: rest).length ∧
          ∀ x ∈ (a :: rest).take 240, |x| ≤ 0.05
      · rw [if_pos hc] at h
        obtain rfl : (0 : ℕ) = i := by
          cases h
          rfl
        exact ⟨(findSettle_cond_iff a rest).mp hc,
          fun j hj => absurd hj (by omega)⟩
      · rw [if_neg hc] at h
        obtain ⟨i', hi', rfl⟩ := Option.map_eq_some'.mp h
        obtain ⟨hs, hmin⟩ := ih i' hi'
        refine ⟨(settledAt_cons_succ a rest i').mpr hs, fun j hj => ?_⟩
        cases j with
        | zero =>
            intro hz
            exact hc ((findSettle_cond_iff a rest).mpr hz)
        | succ j' =>
            rw [settledAt_cons_succ]
            exact hmin j' (by omega)

/-- C9, counterexample.  The single-sample trajectory `[1]` stays outside
the tolerance band, so it never settles and the claim requires a
`None`/absent settling time; `_calculate_settling_time` nonetheless
returns the numeric value `1 * time_step` (the window duration) — a
value indistinguishable from a genuine settling time. -/
theorem never_settled_returns_duration :
    settling_time_spec [1] = none ∧
    calculate_settling_time [1] = time_step := by
  constructor
  · unfold settling_time_spec
    rw [dif_neg]
    rintro ⟨i, hi, -⟩
    simp only [List.length_cons, List.length_nil] at hi
    omega
  · unfold calculate_settling_time
    rw [if_neg (by simp)]
    have h : findSettle [1] = none := by
      rw [findSettle_none_iff]
      rintro i ⟨h1, -⟩
      simp only [List.length_cons, List.length_nil] at h1
      omega
    rw [h]
    simp

open Classical in
/-- C9, amended.  For every angle window, `_calculate_settling_time`
returns `i * time_step` where `i` is the first index *of the analyzed
window* (not of the experiment) from which the trajectory stays within
the `0.05 rad` band for the full 1 s dwell (240 consecutive samples, all
of which must exist inside the window); when no such index exists —
including when the window ends before a dwell can complete — it returns
the window duration `len * time_step` instead of a `None`/absent value. -/
theorem settling_time_first_settled_index (l : List ℝ) :
    calculate_settling_time l =
      (settling_time_spec l).getD ((l.length : ℝ) * time_step) := by
  unfold calculate_settling_time settling_time_spec
  by_cases hemp : l.isEmpty
  · rw [if_pos hemp]
    rw [List.isEmpty_iff] at hemp
    subst hemp
    rw [dif_neg]
    · simp
    · rintro ⟨i, hi⟩
      exact settledAt_nil i hi
  · rw [if_neg hemp]
    cases h : findSettle l with
    | none =>
        rw [dif_neg]
        · simp
        · rintro ⟨i, hi⟩
          exact (findSettle_none_iff l).mp h i hi
    | some i =>
        obtain ⟨hs, hmin⟩ := findSettle_some l i h
        have hex : ∃ j, settledAt l j := ⟨i, hs⟩
        rw [dif_pos hex]
        simp only [Option.getD_some]
        have hfind : Nat.find hex = i := by
          rw [Nat.find_eq_iff]
          exact ⟨hs, fun j hj => hmin j hj⟩
        rw [hfind]

end CtrlHub
